import Mathlib

/-!
Verification of the publication-listing generator `publications.py`
(function `create_pub_listing`).  The Python source is shallowly embedded:

* the entry splitter (`bib_content.strip().split('\n@')` plus marker
  restoration) becomes `splitBibEntries`;
* the per-entry field-extraction loop over pandoc's output lines becomes
  the state-passing fold `parseLines` over `ParseState`, where the Python
  local variable `publisher` (assigned only when a publisher line is seen,
  never reset between entries) is an `Option String` whose `none` models
  the unbound state, and reading it unbound raises `PyErr.nameError`
  exactly as Python raises an uncaught UnboundLocalError/NameError;
* the author-rank computation (`authors.index(author)`) becomes `pyIndex`
  and `authorRank`;
* the per-entry output assembly (lines 103-113 of the source) becomes
  `entryExtras` and `entryGroup`;
* the main loop with its `except subprocess.CalledProcessError` skip
  becomes `runEntries`/`runPipeline` over a list of `RenderOutcome`s
  (the pandoc invocation abstracted as success-with-stdout or failure);
* the `tempfile`/`finally: unlink` discipline becomes the event trace
  `entryTrace`;
* the QMD template becomes `qmdTemplate` and `titleCounts`.

All definitions are structural recursions so that witnesses evaluate by
`decide` or `rfl`.
-/

namespace Publications

/-- Whitespace as stripped by Python `str.strip()` (ASCII range). -/
def isWS (c : Char) : Bool :=
  c == ' ' || c == '\t' || c == '\n' || c == '\r' || c == '\x0b' || c == '\x0c'

/-- Drop leading whitespace characters from a character list. -/
def dropWSLeft : List Char → List Char
  | [] => []
  | c :: t => if isWS c then dropWSLeft t else c :: t

/-- Strip whitespace at both ends of a character list (Python `str.strip()`). -/
def trimChars (l : List Char) : List Char :=
  ((dropWSLeft ((dropWSLeft l).reverse)).reverse)

/-- Python `str.strip()` on strings. -/
def pyStrip (s : String) : String :=
  String.mk (trimChars s.data)

/-- Decide whether the second list starts with the first list. -/
def charsIsPre : List Char → List Char → Bool
  | [], _ => true
  | _ :: _, [] => false
  | a :: ps, b :: ss => a == b && charsIsPre ps ss

/-- Decide whether `pat` occurs as a contiguous sublist (Python `in`). -/
def charsContains (pat : List Char) : List Char → Bool
  | [] => charsIsPre pat []
  | c :: t => charsIsPre pat (c :: t) || charsContains pat t

/-- Everything after the first occurrence of `pat`
(Python `s.split(pat, 1)[1]`), or `none` when `pat` does not occur. -/
def charsAfterFirst (pat : List Char) : List Char → Option (List Char)
  | [] => if charsIsPre pat [] then some [] else none
  | c :: t =>
    if charsIsPre pat (c :: t) then some ((c :: t).drop pat.length)
    else charsAfterFirst pat t

/-- Python `s.startswith(pre)`. -/
def pyStartsWith (s pre : String) : Bool :=
  charsIsPre pre.data s.data

/-- Python `pat in s`. -/
def pyContains (s pat : String) : Bool :=
  charsContains pat.data s.data

/-- Python `s.split(pat, 1)[1]`; the branches of the source only ever read
this under a guard that guarantees `pat` occurs, so the unreachable
missing case returns the empty string. -/
def pyAfterFirst (s pat : String) : String :=
  match charsAfterFirst pat.data s.data with
  | some r => String.mk r
  | none => ""

/-- Split a character list on the literal entry marker `"\n@"`, the
separator used by `bib_content.strip().split('\n@')`.  The accumulator
holds the current fragment reversed. -/
def splitEntriesAux : List Char → List Char → List (List Char)
  | [], acc => [acc.reverse]
  | '\n' :: '@' :: t, acc => acc.reverse :: splitEntriesAux t []
  | c :: t, acc => splitEntriesAux t (c :: acc)

/-- Handling of the first fragment (source lines 33-37): strip it,
prepend the marker when it is nonempty and does not already carry one,
and keep it only when nonempty. -/
def firstEntryList (e0 : List Char) : List String :=
  if pyStrip (String.mk e0) ≠ "" ∧ pyStartsWith (pyStrip (String.mk e0)) "@" = false then
    if ("@" ++ pyStrip (String.mk e0)) ≠ "" then ["@" ++ pyStrip (String.mk e0)] else []
  else
    if pyStrip (String.mk e0) ≠ "" then [pyStrip (String.mk e0)] else []

/-- Marker restoration applied to the fragments of the already-stripped
bibliography text (source lines 29-42): special-case the first fragment,
prepend the marker to every later nonblank fragment, drop blank ones. -/
def restoreMarker : List (List Char) → List String
  | [] => []
  | e0 :: rest =>
    firstEntryList e0 ++
      rest.filterMap (fun p =>
        if pyStrip (String.mk p) ≠ "" then some ("@" ++ String.mk p) else none)

/-- Split the stripped bibliography text and restore the markers. -/
def splitStripped (l : List Char) : List String :=
  restoreMarker (splitEntriesAux l [])

/-- The entry splitter of `create_pub_listing`: strip the raw text, split
on the entry marker, restore the marker, and drop blank fragments. -/
def splitBibEntries (bib_content : String) : List String :=
  splitStripped (pyStrip bib_content).data

/-- Python exceptions that escape the per-entry `try` block: reading the
`publisher` variable before any assignment raises an uncaught
UnboundLocalError (a NameError), which is not caught by the
`except subprocess.CalledProcessError` handler. -/
inductive PyErr where
  | nameError
  deriving DecidableEq

/-- State of the field-extraction loop over one entry's pandoc output
(source lines 65-89).  `publisher` is `none` while the Python local of the
same name is unbound; all other fields start as the empty string. -/
structure ParseState where
  authors : List String
  publisher : Option String
  container_title : String
  issued_date : String
  doi : String
  url : String
  out_lines : List String
  deriving DecidableEq

/-- One iteration of the extraction loop: the `if/elif` chain of source
lines 70-89, including the in-place remapping of the `type:` line and the
`container_title = publisher` substitution for books. -/
def parseLine (st : ParseState) (line : String) : Except PyErr ParseState :=
  if pyContains line "- family:" then
    .ok { st with authors := st.authors ++ [pyStrip (pyAfterFirst line "family:")],
                  out_lines := st.out_lines ++ [line] }
  else if pyStartsWith (pyStrip line) "publisher:" then
    .ok { st with publisher := some (pyStrip (pyAfterFirst line ":")),
                  out_lines := st.out_lines ++ [line] }
  else if pyStartsWith (pyStrip line) "container-title:" then
    .ok { st with container_title := pyStrip (pyAfterFirst line ":"),
                  out_lines := st.out_lines ++ [line] }
  else if pyStartsWith (pyStrip line) "issued:" then
    .ok { st with issued_date := pyStrip (pyAfterFirst line ":"),
                  out_lines := st.out_lines ++ [line] }
  else if pyStartsWith (pyStrip line) "doi:" then
    .ok { st with doi := pyStrip (pyAfterFirst line ":"),
                  out_lines := st.out_lines ++ [line] }
  else if pyStartsWith (pyStrip line) "url:" then
    .ok { st with url := pyStrip (pyAfterFirst line ":"),
                  out_lines := st.out_lines ++ [line] }
  else if pyStartsWith (pyStrip line) "type:" then
    if pyStrip (pyAfterFirst line ":") = "book" then
      match st.publisher with
      | none => .error .nameError
      | some p =>
        .ok { st with container_title := p,
                      out_lines := st.out_lines ++ ["  type: conference"] }
    else if pyStrip (pyAfterFirst line ":") = "article-journal" then
      .ok { st with out_lines := st.out_lines ++ ["  type: journal"] }
    else
      .ok { st with out_lines := st.out_lines ++ [line] }
  else
    .ok { st with out_lines := st.out_lines ++ [line] }

/-- The extraction loop over all lines of one entry. -/
def parseLines : ParseState → List String → Except PyErr ParseState
  | st, [] => .ok st
  | st, l :: ls =>
    match parseLine st l with
    | .error e => .error e
    | .ok st2 => parseLines st2 ls

/-- Loop state at the start of an entry: fresh `authors = []` and empty
field strings (source lines 65-67), with `publisher` carried over from
previous iterations because the source never resets it. -/
def initState (pub : Option String) : ParseState :=
  ⟨[], pub, "", "", "", "", []⟩

/-- Python `list.index` as a total function: index of the first exact
match, or `none` (where Python raises ValueError). -/
def pyIndex (xs : List String) (a : String) : Option Nat :=
  match xs with
  | [] => none
  | x :: rest => if x = a then some 0 else (pyIndex rest a).map (· + 1)

/-- The author-rank string of source lines 90-97:
`"<1-based position>/<total>"` on a hit, `"N/A/<total>"` otherwise. -/
def authorRank (authors : List String) (author : String) : String :=
  match pyIndex authors author with
  | some i => toString (i + 1) ++ "/" ++ toString authors.length
  | none => "N/A/" ++ toString authors.length

/-- The `position:` output line built from the rank. -/
def position_line (authors : List String) (author : String) : String :=
  "  position: \x27" ++ authorRank authors author ++ "\x27"

/-- Whether the running first-author counter is incremented for this
entry (`author_pos == 1`, source lines 94-95). -/
def isFirstAuthorB (authors : List String) (author : String) : Bool :=
  match pyIndex authors author with
  | some 0 => true
  | _ => false

/-- The venue-title output line. -/
def typeTitleLine (ct : String) : String :=
  "  type-title: \x27*" ++ ct ++ "*\x27"

/-- The issue-date output line. -/
def dateLine (iss : String) : String :=
  "  date: " ++ iss

/-- The DOI-derived resolver-link output line. -/
def doiLine (doi : String) : String :=
  "  path: https://doi.org/" ++ doi

/-- The verbatim explicit-link output line. -/
def urlLine (url : String) : String :=
  "  path: " ++ url

/-- Conditional venue-title part (source lines 104-105). -/
def titlePart (ct : String) : List String :=
  if ct = "" then [] else [typeTitleLine ct]

/-- Conditional date part (source lines 106-107). -/
def datePart (iss : String) : List String :=
  if iss = "" then [] else [dateLine iss]

/-- Conditional DOI-link part (source lines 108-109). -/
def doiPart (doi : String) : List String :=
  if doi = "" then [] else [doiLine doi]

/-- Conditional explicit-link part (source lines 110-111). -/
def urlPart (url : String) : List String :=
  if url = "" then [] else [urlLine url]

/-- The lines appended after an entry's (possibly remapped) pandoc lines,
in source order: venue title, date, DOI link, explicit link. -/
def entryExtras (ct iss doi url : String) : List String :=
  titlePart ct ++ datePart iss ++ doiPart doi ++ urlPart url

/-- The full output group of one successfully processed entry. -/
def entryGroup (st : ParseState) (author : String) : List String :=
  st.out_lines ++
    entryExtras st.container_title st.issued_date st.doi st.url ++
    [position_line st.authors author]

/-- Result of the pandoc subprocess for one entry: failure
(`CalledProcessError`) or success with the captured stdout lines. -/
inductive RenderOutcome where
  | fail
  | ok (stdout_lines : List String)
  deriving DecidableEq

/-- Python `pandoc_output_lines[3:-2]`: discard three framing lines at
the head and two at the tail. -/
def articleLines (stdout_lines : List String) : List String :=
  (stdout_lines.drop 3).take (stdout_lines.length - 5)

/-- What one iteration of the main loop contributes. -/
structure EntryResult where
  group : Option (List String)
  publisher : Option String
  firstInc : Bool
  deriving DecidableEq

/-- One iteration of the main loop (source lines 48-120): a failed render
is skipped with the carried state unchanged; a successful render is
parsed (possibly raising the uncaught name error) and assembled into one
output group. -/
def processEntry (author : String) (pub : Option String) :
    RenderOutcome → Except PyErr EntryResult
  | .fail => .ok ⟨none, pub, false⟩
  | .ok out =>
    match parseLines (initState pub) (articleLines out) with
    | .error e => .error e
    | .ok st =>
      .ok ⟨some (entryGroup st author), st.publisher,
           isFirstAuthorB st.authors author⟩

/-- Accumulated state of the main loop. -/
structure RunState where
  groups : List (List String)
  publisher : Option String
  first_author_count : Nat
  deriving DecidableEq

/-- Append an optional group to the accumulated groups. -/
def stepGroups (gs : List (List String)) : Option (List String) → List (List String)
  | some g => gs ++ [g]
  | none => gs

/-- The main loop over all entries' render outcomes. -/
def runEntries (author : String) : RunState → List RenderOutcome → Except PyErr RunState
  | rs, [] => .ok rs
  | rs, o :: os =>
    match processEntry author rs.publisher o with
    | .error e => .error e
    | .ok er =>
      runEntries author
        ⟨stepGroups rs.groups er.group, er.publisher,
         rs.first_author_count + (if er.firstInc then 1 else 0)⟩ os

/-- The whole processing run: empty accumulators and, crucially, the
`publisher` variable unbound. -/
def runPipeline (author : String) (outs : List RenderOutcome) : Except PyErr RunState :=
  runEntries author ⟨[], none, 0⟩ outs

/-- Whether a render outcome is a failure. -/
def isFail : RenderOutcome → Bool
  | .fail => true
  | .ok _ => false

/-- Number of entries whose pandoc invocation failed. -/
def countFails (outs : List RenderOutcome) : Nat :=
  outs.countP isFail

/-- The author family names an entry's lines contribute, read off the
same guard and extraction as the family branch of `parseLine`. -/
def authorsOf : List String → List String
  | [] => []
  | l :: ls =>
    (if pyContains l "- family:" then [pyStrip (pyAfterFirst l "family:")] else []) ++
    authorsOf ls

/-- Whether the target author is first-listed in a successfully rendered
entry; a failed render contributes nothing. -/
def entryFirstB (author : String) : RenderOutcome → Bool
  | .fail => false
  | .ok out => isFirstAuthorB (authorsOf (articleLines out)) author

/-- Number of outcomes in which the target author is first-listed. -/
def firstListedCount (author : String) (outs : List RenderOutcome) : Nat :=
  outs.countP (entryFirstB author)

/-- The title statistic of source line 129:
`f"{first_author_count} + {total_articles - first_author_count}"`. -/
def titleCounts (first_author_count total_articles : Nat) : String :=
  toString first_author_count ++ " + " ++ toString (total_articles - first_author_count)

/-- Fixed template text before the title statistic. -/
def qmdHead : String :=
  "---\ntitle: \x27Publications ("

/-- Fixed template text between the title statistic and the data-file name. -/
def qmdMid : String :=
  ")\x27\ntitle-block-banner: true\ndate-format: \x27MMMM,<br>YYYY\x27\nlisting:\n  contents:\n    - "

/-- Fixed template text after the data-file name. -/
def qmdTail : String :=
  "\n  page-size: 10\n  sort: \x27date desc\x27\n  type: table\n  categories: false\n  sort-ui: [date, title, type, type-title, position]\n  filter-ui: [date, title, type, type-title]\n  fields: [date, title, type, type-title, position]\n  field-display-names:\n    date: Date\n    type: Type\n    type-title: Type Name\n    position: Rank\n---\n"

/-- The emitted QMD listing-definition document (source lines 131-151). -/
def qmdTemplate (yml_name title_counts : String) : String :=
  qmdHead ++ title_counts ++ qmdMid ++ yml_name ++ qmdTail

/-- Join output lines with newlines and terminate with one (lines 123-125). -/
def joinLines : List String → String
  | [] => ""
  | [l] => l
  | l :: ls => l ++ "\n" ++ joinLines ls

/-- The content of the emitted YAML data file. -/
def ymlContent (groups : List (List String)) : String :=
  joinLines groups.flatten ++ "\n"

/-- Observable resource events of one iteration of the main loop: the
scratch file is created before the `try` block, and the `finally` block
unlinks it on every path out of the `try` - success, the caught
`CalledProcessError`, and the uncaught name error alike. -/
inductive FileEvent where
  | acquireScratch
  | writeScratch
  | invokeFormatter
  | logWarning
  | appendOutput
  | raiseUncaught
  | releaseScratch
  deriving DecidableEq

/-- The event trace of one iteration of the main loop (source lines
48-120), mirroring its `try`/`except`/`finally` structure. -/
def entryTrace (_author : String) (pub : Option String) : RenderOutcome → List FileEvent
  | .fail =>
    [.acquireScratch, .writeScratch, .invokeFormatter, .logWarning] ++ [.releaseScratch]
  | .ok out =>
    [.acquireScratch, .writeScratch, .invokeFormatter] ++
      (match parseLines (initState pub) (articleLines out) with
       | .error _ => [.raiseUncaught]
       | .ok _ => [.appendOutput]) ++
      [.releaseScratch]

/-- Sample pandoc stdout used by concrete runs: three framing head lines,
one family line for the target author, two framing tail lines. -/
def sampleOkLines : List String :=
  ["a", "b", "c", "  - family: Stephens", "y", "z"]

/-- The output group produced for `sampleOkLines` with target
author Stephens. -/
def sampleGroup : List String :=
  ["  - family: Stephens", "  position: \x271/1\x27"]

instance {ε α : Type} [DecidableEq ε] [DecidableEq α] : DecidableEq (Except ε α)
  | .error e, .error f =>
    if h : e = f then .isTrue (by rw [h])
    else .isFalse (fun hc => h (by injection hc))
  | .error _, .ok _ => .isFalse (fun hc => Except.noConfusion hc)
  | .ok _, .error _ => .isFalse (fun hc => Except.noConfusion hc)
  | .ok x, .ok y =>
    if h : x = y then .isTrue (by rw [h])
    else .isFalse (fun hc => h (by injection hc))

theorem data_append (s t : String) : (s ++ t).data = s.data ++ t.data := by
  cases s; cases t; rfl

theorem string_eq_empty_iff (s : String) : s = "" ↔ s.data = [] := by
  cases s with
  | mk l =>
    constructor
    · intro h
      rw [h]
    · intro h
      have hl : l = [] := h
      subst hl
      rfl

theorem dropWSLeft_head {l t : List Char} {c : Char}
    (h : dropWSLeft l = c :: t) : isWS c = false := by
  induction l with
  | nil => simp [dropWSLeft] at h
  | cons a as ih =>
    simp only [dropWSLeft] at h
    by_cases ha : isWS a
    · rw [if_pos ha] at h
      exact ih h
    · rw [if_neg ha] at h
      injection h with h1 _
      subst h1
      exact Bool.eq_false_iff.mpr ha

theorem mem_dropWSLeft {l : List Char} {c : Char}
    (hc : c ∈ l) (hw : isWS c = false) : c ∈ dropWSLeft l := by
  induction l with
  | nil => cases hc
  | cons a as ih =>
    simp only [dropWSLeft]
    by_cases ha : isWS a
    · rw [if_pos ha]
      rcases List.mem_cons.1 hc with h | h
      · subst h
        rw [ha] at hw
        cases hw
      · exact ih h
    · rw [if_neg ha]
      exact hc

theorem dropWSLeft_eq_nil {l : List Char}
    (h : ∀ c ∈ l, isWS c = true) : dropWSLeft l = [] := by
  induction l with
  | nil => rfl
  | cons a as ih =>
    simp only [dropWSLeft]
    rw [if_pos (h a (List.mem_cons_self a as))]
    exact ih (fun c hc => h c (List.mem_cons_of_mem a hc))

theorem dropWSLeft_ws_append {a b : List Char}
    (h : ∀ c ∈ a, isWS c = true) : dropWSLeft (a ++ b) = dropWSLeft b := by
  induction a with
  | nil => rfl
  | cons x xs ih =>
    simp only [List.cons_append, dropWSLeft]
    rw [if_pos (h x (List.mem_cons_self x xs))]
    exact ih (fun c hc => h c (List.mem_cons_of_mem x hc))

theorem dropWSLeft_drop_append (a b : List Char) :
    dropWSLeft (a ++ b) = dropWSLeft (dropWSLeft a ++ b) := by
  induction a with
  | nil => rfl
  | cons x xs ih =>
    simp only [List.cons_append, dropWSLeft]
    by_cases hx : isWS x
    · rw [if_pos hx, if_pos hx]
      exact ih
    · rw [if_neg hx, if_neg hx]
      simp [dropWSLeft, hx]

theorem trimChars_ws_append {p b : List Char}
    (h : ∀ c ∈ p, isWS c = true) : trimChars (p ++ b) = trimChars b := by
  unfold trimChars
  rw [dropWSLeft_ws_append h]

theorem trimChars_append_ws {p b : List Char}
    (h : ∀ c ∈ p, isWS c = true) : trimChars (b ++ p) = trimChars b := by
  unfold trimChars
  rw [dropWSLeft_drop_append b p]
  cases hb : dropWSLeft b with
  | nil =>
    rw [List.nil_append, dropWSLeft_eq_nil h]
  | cons c t =>
    have hc : isWS c = false := dropWSLeft_head hb
    have h1 : dropWSLeft ((c :: t) ++ p) = c :: (t ++ p) := by
      simp [dropWSLeft, hc]
    rw [h1]
    have h2 : (c :: (t ++ p)).reverse = p.reverse ++ (t.reverse ++ [c]) := by
      simp
    rw [h2]
    rw [dropWSLeft_ws_append (fun x hx => h x (List.mem_reverse.1 hx))]
    rw [show t.reverse ++ [c] = (c :: t).reverse by simp]

theorem trimChars_ne_nil {l : List Char} {c : Char}
    (hc : c ∈ l) (hw : isWS c = false) : trimChars l ≠ [] := by
  intro h
  unfold trimChars at h
  have h2 : dropWSLeft ((dropWSLeft l).reverse) = [] := by
    have := congrArg List.reverse h
    simpa using this
  have hcl : c ∈ dropWSLeft l := mem_dropWSLeft hc hw
  have hcr : c ∈ (dropWSLeft l).reverse := List.mem_reverse.2 hcl
  have hcd : c ∈ dropWSLeft ((dropWSLeft l).reverse) := mem_dropWSLeft hcr hw
  rw [h2] at hcd
  cases hcd

theorem trimChars_has_nonws {l : List Char}
    (h : trimChars l ≠ []) : ∃ c ∈ trimChars l, isWS c = false := by
  cases hq : dropWSLeft ((dropWSLeft l).reverse) with
  | nil =>
    exact absurd (by unfold trimChars; rw [hq]; rfl) h
  | cons c t =>
    refine ⟨c, ?_, dropWSLeft_head hq⟩
    unfold trimChars
    rw [hq]
    exact List.mem_reverse.2 (List.mem_cons_self c t)

theorem pyStrip_data (s : String) : (pyStrip s).data = trimChars s.data := rfl

theorem pyStrip_ne_empty {s : String} {c : Char}
    (hc : c ∈ s.data) (hw : isWS c = false) : pyStrip s ≠ "" := by
  intro h
  exact trimChars_ne_nil hc hw ((string_eq_empty_iff _).1 h)

theorem pyStrip_pyStrip_ne {s : String}
    (h : pyStrip s ≠ "") : pyStrip (pyStrip s) ≠ "" := by
  have hd : trimChars s.data ≠ [] := fun hn => h ((string_eq_empty_iff _).2 hn)
  obtain ⟨c, hc, hw⟩ := trimChars_has_nonws hd
  exact pyStrip_ne_empty (s := pyStrip s) hc hw

theorem pyStrip_pad (s pad1 pad2 : String)
    (h1 : ∀ c ∈ pad1.data, isWS c = true)
    (h2 : ∀ c ∈ pad2.data, isWS c = true) :
    pyStrip (pad1 ++ s ++ pad2) = pyStrip s := by
  unfold pyStrip
  rw [data_append, data_append]
  rw [List.append_assoc]
  rw [trimChars_ws_append h1, trimChars_append_ws h2]

theorem pyStartsWith_at (x : String) : pyStartsWith ("@" ++ x) "@" = true := by
  unfold pyStartsWith
  rw [data_append]
  simp [charsIsPre]

theorem at_mem_data (x : String) : '@' ∈ ("@" ++ x).data := by
  rw [data_append]
  exact List.mem_append_left _ (by simp)

theorem pyStrip_at_ne (x : String) : pyStrip ("@" ++ x) ≠ "" :=
  pyStrip_ne_empty (at_mem_data x) (by decide)

theorem pyIndex_isSome_of_mem {xs : List String} {a : String}
    (h : a ∈ xs) : ∃ i, pyIndex xs a = some i := by
  induction xs with
  | nil => cases h
  | cons x t ih =>
    by_cases hx : x = a
    · exact ⟨0, by simp [pyIndex, hx]⟩
    · rcases List.mem_cons.1 h with h1 | h1
      · exact absurd h1.symm hx
      · obtain ⟨i, hi⟩ := ih h1
        exact ⟨i + 1, by simp [pyIndex, hx, hi]⟩

theorem pyIndex_eq_none_of_not_mem {xs : List String} {a : String}
    (h : a ∉ xs) : pyIndex xs a = none := by
  induction xs with
  | nil => rfl
  | cons x t ih =>
    have hx : x ≠ a := fun hc => h (hc ▸ List.mem_cons_self x t)
    have ht : a ∉ t := fun hc => h (List.mem_cons_of_mem x hc)
    simp [pyIndex, hx, ih ht]

theorem pyIndex_spec {xs : List String} {a : String} {i : Nat}
    (h : pyIndex xs a = some i) :
    xs[i]? = some a ∧ ∀ j, j < i → xs[j]? ≠ some a := by
  induction xs generalizing i with
  | nil => cases h
  | cons x t ih =>
    by_cases hx : x = a
    · simp only [pyIndex, if_pos hx] at h
      injection h with h
      subst h
      subst hx
      exact ⟨by simp, fun j hj => absurd hj (by omega)⟩
    · simp only [pyIndex, if_neg hx] at h
      rcases Option.map_eq_some'.1 h with ⟨i', hi', hii⟩
      subst hii
      obtain ⟨hget, hlt⟩ := ih hi'
      refine ⟨by simpa using hget, ?_⟩
      intro j hj
      cases j with
      | zero =>
        simp only [List.getElem?_cons_zero]
        intro hc
        exact hx (by injection hc)
      | succ j' =>
        simp only [List.getElem?_cons_succ]
        exact hlt j' (by omega)

theorem parseLine_authors {st : ParseState} {l : String} {st' : ParseState}
    (h : parseLine st l = .ok st') :
    st'.authors = st.authors ++
      (if pyContains l "- family:" then [pyStrip (pyAfterFirst l "family:")] else []) := by
  unfold parseLine at h
  by_cases g1 : pyContains l "- family:" = true
  · simp only [g1, if_true] at h
    cases h
    simp [g1]
  · have g1f : pyContains l "- family:" = false := by
      cases hgc : pyContains l "- family:"
      · rfl
      · exact absurd hgc g1
    simp only [g1f, Bool.false_eq_true, if_false] at h
    have goal_ite :
        (if pyContains l "- family:" then [pyStrip (pyAfterFirst l "family:")] else
          ([] : List String)) = [] := by
      simp [g1f]
    rw [goal_ite]
    by_cases g2 : pyStartsWith (pyStrip l) "publisher:" = true
    · simp only [g2, if_true] at h
      cases h
      simp
    · simp only [Bool.not_eq_true] at g2
      simp only [g2, Bool.false_eq_true, if_false] at h
      by_cases g3 : pyStartsWith (pyStrip l) "container-title:" = true
      · simp only [g3, if_true] at h
        cases h
        simp
      · simp only [Bool.not_eq_true] at g3
        simp only [g3, Bool.false_eq_true, if_false] at h
        by_cases g4 : pyStartsWith (pyStrip l) "issued:" = true
        · simp only [g4, if_true] at h
          cases h
          simp
        · simp only [Bool.not_eq_true] at g4
          simp only [g4, Bool.false_eq_true, if_false] at h
          by_cases g5 : pyStartsWith (pyStrip l) "doi:" = true
          · simp only [g5, if_true] at h
            cases h
            simp
          · simp only [Bool.not_eq_true] at g5
            simp only [g5, Bool.false_eq_true, if_false] at h
            by_cases g6 : pyStartsWith (pyStrip l) "url:" = true
            · simp only [g6, if_true] at h
              cases h
              simp
            · simp only [Bool.not_eq_true] at g6
              simp only [g6, Bool.false_eq_true, if_false] at h
              by_cases g7 : pyStartsWith (pyStrip l) "type:" = true
              · simp only [g7, if_true] at h
                by_cases gb : pyStrip (pyAfterFirst l ":") = "book"
                · rw [if_pos gb] at h
                  cases hps : st.publisher with
                  | none =>
                    rw [hps] at h
                    cases h
                  | some p =>
                    rw [hps] at h
                    cases h
                    simp
                · rw [if_neg gb] at h
                  by_cases gj : pyStrip (pyAfterFirst l ":") = "article-journal"
                  · rw [if_pos gj] at h
                    cases h
                    simp
                  · rw [if_neg gj] at h
                    cases h
                    simp
              · simp only [Bool.not_eq_true] at g7
                simp only [g7, Bool.false_eq_true, if_false] at h
                cases h
                simp

theorem parseLines_authors {ls : List String} {st st' : ParseState}
    (h : parseLines st ls = .ok st') :
    st'.authors = st.authors ++ authorsOf ls := by
  induction ls generalizing st with
  | nil =>
    cases h
    simp [authorsOf]
  | cons l ls ih =>
    simp only [parseLines] at h
    cases hp : parseLine st l with
    | error e =>
      rw [hp] at h
      cases h
    | ok st2 =>
      rw [hp] at h
      rw [ih h, parseLine_authors hp, List.append_assoc]
      simp [authorsOf]

/-- C1: the author-rank calculator returns the string
"(1-based position)/(total)" where the position is that of the first
exact match of the target in the family-name list, and "N/A/(total)" when
the target does not occur; in particular the rank for
["Smith", "Stephens", "Lee"] and target "Stephens" is "2/3". -/
theorem c1_author_rank (authors : List String) (author : String) :
    (author ∈ authors →
      ∃ i, pyIndex authors author = some i ∧
        authors[i]? = some author ∧
        (∀ j, j < i → authors[j]? ≠ some author) ∧
        authorRank authors author = toString (i + 1) ++ "/" ++ toString authors.length) ∧
    (author ∉ authors →
      authorRank authors author = "N/A/" ++ toString authors.length) ∧
    authorRank ["Smith", "Stephens", "Lee"] "Stephens" = "2/3" := by
  refine ⟨?_, ?_, by decide⟩
  · intro h
    obtain ⟨i, hi⟩ := pyIndex_isSome_of_mem h
    obtain ⟨hg, hl⟩ := pyIndex_spec hi
    exact ⟨i, hi, hg, hl, by simp [authorRank, hi]⟩
  · intro h
    simp [authorRank, pyIndex_eq_none_of_not_mem h]

/-- Witness for C1 at the concrete inputs of the spec's example. -/
theorem c1_author_rank_witness :
    (∃ i, pyIndex ["Smith", "Stephens", "Lee"] "Stephens" = some i ∧
      (["Smith", "Stephens", "Lee"] : List String)[i]? = some "Stephens" ∧
      (∀ j, j < i → (["Smith", "Stephens", "Lee"] : List String)[j]? ≠ some "Stephens") ∧
      authorRank ["Smith", "Stephens", "Lee"] "Stephens" =
        toString (i + 1) ++ "/" ++ toString (["Smith", "Stephens", "Lee"] : List String).length) ∧
    authorRank ["Smith", "Lee"] "Stephens" =
      "N/A/" ++ toString (["Smith", "Lee"] : List String).length :=
  ⟨(c1_author_rank ["Smith", "Stephens", "Lee"] "Stephens").1 (by decide),
   (c1_author_rank ["Smith", "Lee"] "Stephens").2.1 (by decide)⟩

/-- C2: on the line declaring the entry's category (and on no other kind
of line, which the guard hypotheses express), a declared "book" is
remapped to "conference" with the current publisher substituted as the
venue title (so a publisher p yields the output line with *p*), a
declared "article-journal" is remapped to "journal", and any other
category leaves the line unchanged. -/
theorem c2_category_normalization (st : ParseState) (line : String)
    (h1 : pyContains line "- family:" = false)
    (h2 : pyStartsWith (pyStrip line) "publisher:" = false)
    (h3 : pyStartsWith (pyStrip line) "container-title:" = false)
    (h4 : pyStartsWith (pyStrip line) "issued:" = false)
    (h5 : pyStartsWith (pyStrip line) "doi:" = false)
    (h6 : pyStartsWith (pyStrip line) "url:" = false)
    (h7 : pyStartsWith (pyStrip line) "type:" = true) :
    (pyStrip (pyAfterFirst line ":") = "book" →
      ∀ p, st.publisher = some p →
        parseLine st line =
          .ok { st with container_title := p,
                        out_lines := st.out_lines ++ ["  type: conference"] } ∧
        (∀ i d u, p ≠ "" → typeTitleLine p ∈ entryExtras p i d u)) ∧
    (pyStrip (pyAfterFirst line ":") = "article-journal" →
      parseLine st line =
        .ok { st with out_lines := st.out_lines ++ ["  type: journal"] }) ∧
    (pyStrip (pyAfterFirst line ":") ≠ "book" →
      pyStrip (pyAfterFirst line ":") ≠ "article-journal" →
      parseLine st line = .ok { st with out_lines := st.out_lines ++ [line] }) := by
  refine ⟨?_, ?_, ?_⟩
  · intro hb p hp
    constructor
    · simp [parseLine, h1, h2, h3, h4, h5, h6, h7, hb, hp]
    · intro i d u hpne
      simp [entryExtras, titlePart, hpne]
  · intro hj
    simp [parseLine, h1, h2, h3, h4, h5, h6, h7, hj]
  · intro hb hj
    simp [parseLine, h1, h2, h3, h4, h5, h6, h7, hb, hj]

/-- Witness for C2: the concrete book line with publisher "ACM". -/
theorem c2_category_normalization_witness :
    parseLine ⟨[], some "ACM", "", "", "", "", []⟩ "  type: book" =
      .ok ⟨[], some "ACM", "ACM", "", "", "", ["  type: conference"]⟩ ∧
    typeTitleLine "ACM" ∈ entryExtras "ACM" "" "" "" := by
  have h := (c2_category_normalization ⟨[], some "ACM", "", "", "", "", []⟩ "  type: book"
    (by decide) (by decide) (by decide) (by decide) (by decide) (by decide) (by decide)).1
    (by decide) "ACM" rfl
  exact ⟨h.1, h.2 "" "" "" (by decide)⟩

/-- C5: for an entry's derived fields, a nonempty identifier yields the
canonical DOI-resolver line, a nonempty explicit link yields its verbatim
line, and when both are present both lines appear with the explicit-link
line appended directly after the identifier-derived one. -/
theorem c5_link_resolution (ct iss doi url : String) :
    (doi ≠ "" → doiLine doi ∈ entryExtras ct iss doi url) ∧
    (url ≠ "" → urlLine url ∈ entryExtras ct iss doi url) ∧
    (doi ≠ "" → url ≠ "" →
      ∃ pre, entryExtras ct iss doi url = pre ++ [doiLine doi, urlLine url]) := by
  refine ⟨?_, ?_, ?_⟩
  · intro hd
    simp [entryExtras, doiPart, hd]
  · intro hu
    simp [entryExtras, urlPart, hu]
  · intro hd hu
    refine ⟨titlePart ct ++ datePart iss, ?_⟩
    simp [entryExtras, doiPart, urlPart, hd, hu]

/-- Witness for C5 with both an identifier and an explicit link present. -/
theorem c5_link_resolution_witness :
    ∃ pre, entryExtras "Venue" "2020" "10.1000/x" "http://example.org" =
      pre ++ [doiLine "10.1000/x", urlLine "http://example.org"] :=
  (c5_link_resolution "Venue" "2020" "10.1000/x" "http://example.org").2.2
    (by decide) (by decide)

/-- C7: every line of the appended extras comes from a nonempty field;
when the venue title, date, identifier or link is absent (empty) the
corresponding line is omitted from the entry's record; and the entry's
group is still produced, terminated by its position line, so the omission
is never fatal. -/
theorem c7_missing_field_omission (ct iss doi url : String)
    (st : ParseState) (author : String) :
    (∀ e ∈ entryExtras ct iss doi url,
      (ct ≠ "" ∧ e = typeTitleLine ct) ∨ (iss ≠ "" ∧ e = dateLine iss) ∨
      (doi ≠ "" ∧ e = doiLine doi) ∨ (url ≠ "" ∧ e = urlLine url)) ∧
    (ct = "" → entryExtras ct iss doi url = datePart iss ++ doiPart doi ++ urlPart url) ∧
    (iss = "" → entryExtras ct iss doi url = titlePart ct ++ doiPart doi ++ urlPart url) ∧
    (doi = "" → entryExtras ct iss doi url = titlePart ct ++ datePart iss ++ urlPart url) ∧
    (url = "" → entryExtras ct iss doi url = titlePart ct ++ datePart iss ++ doiPart doi) ∧
    (entryGroup st author).getLast? = some (position_line st.authors author) := by
  refine ⟨?_, ?_, ?_, ?_, ?_, ?_⟩
  · intro e he
    by_cases hc : ct = "" <;> by_cases hi : iss = "" <;>
      by_cases hd : doi = "" <;> by_cases hu : url = "" <;>
      simp [entryExtras, titlePart, datePart, doiPart, urlPart, hc, hi, hd, hu] at he <;>
      tauto
  · intro hc
    simp [entryExtras, titlePart, hc]
  · intro hi
    simp [entryExtras, datePart, hi]
  · intro hd
    simp [entryExtras, doiPart, hd]
  · intro hu
    simp [entryExtras, urlPart, hu]
  · unfold entryGroup
    exact List.getLast?_concat _

/-- Witness for C7: an entry with no venue title omits the type-title
line, and the group still ends with its position line. -/
theorem c7_missing_field_omission_witness :
    entryExtras "" "2020" "" "" = datePart "2020" ++ doiPart "" ++ urlPart "" ∧
    (entryGroup ⟨["Stephens"], none, "", "2020", "", "", []⟩ "Stephens").getLast? =
      some (position_line ["Stephens"] "Stephens") :=
  ⟨(c7_missing_field_omission "" "2020" "" "" ⟨["Stephens"], none, "", "2020", "", "", []⟩
      "Stephens").2.1 rfl,
   (c7_missing_field_omission "" "2020" "" "" ⟨["Stephens"], none, "", "2020", "", "", []⟩
      "Stephens").2.2.2.2.2⟩

/-- C8: on every path of one main-loop iteration, success, caught render
failure, or uncaught parse error, the scratch file is acquired first and
released last, exactly once: the event trace of the try/finally structure
starts with the acquisition, ends with the release, and contains exactly
one release. -/
theorem c8_scratch_cleanup (author : String) (pub : Option String) (o : RenderOutcome) :
    (entryTrace author pub o).head? = some FileEvent.acquireScratch ∧
    (entryTrace author pub o).getLast? = some FileEvent.releaseScratch ∧
    (entryTrace author pub o).count FileEvent.releaseScratch = 1 ∧
    FileEvent.invokeFormatter ∈ entryTrace author pub o := by
  cases o with
  | fail =>
    have ht : entryTrace author pub .fail =
        [.acquireScratch, .writeScratch, .invokeFormatter, .logWarning, .releaseScratch] := rfl
    rw [ht]
    decide
  | ok out =>
    cases hp : parseLines (initState pub) (articleLines out) with
    | error e =>
      have ht : entryTrace author pub (.ok out) =
          [.acquireScratch, .writeScratch, .invokeFormatter, .raiseUncaught, .releaseScratch] := by
        simp [entryTrace, hp]
      rw [ht]
      decide
    | ok st =>
      have ht : entryTrace author pub (.ok out) =
          [.acquireScratch, .writeScratch, .invokeFormatter, .appendOutput, .releaseScratch] := by
        simp [entryTrace, hp]
      rw [ht]
      decide

theorem at_append_ne_empty (x : String) : ("@" ++ x) ≠ "" := by
  intro h
  have hd := (string_eq_empty_iff _).1 h
  rw [data_append] at hd
  simp at hd

theorem firstEntryList_mem {e0 : List Char} {e : String}
    (he : e ∈ firstEntryList e0) :
    pyStartsWith e "@" = true ∧ pyStrip e ≠ "" := by
  unfold firstEntryList at he
  by_cases hcond : pyStrip (String.mk e0) ≠ "" ∧
      pyStartsWith (pyStrip (String.mk e0)) "@" = false
  · rw [if_pos hcond, if_pos (at_append_ne_empty _)] at he
    have he2 : e = "@" ++ pyStrip (String.mk e0) := by simpa using he
    subst he2
    exact ⟨pyStartsWith_at _, pyStrip_at_ne _⟩
  · rw [if_neg hcond] at he
    by_cases hne : pyStrip (String.mk e0) ≠ ""
    · rw [if_pos hne] at he
      have he2 : e = pyStrip (String.mk e0) := by simpa using he
      subst he2
      have hsw : pyStartsWith (pyStrip (String.mk e0)) "@" = true := by
        cases hb : pyStartsWith (pyStrip (String.mk e0)) "@"
        · exact absurd ⟨hne, hb⟩ hcond
        · rfl
      exact ⟨hsw, pyStrip_pyStrip_ne hne⟩
    · rw [if_neg hne] at he
      cases he

theorem restoreMarker_mem {fr : List (List Char)} {e : String}
    (he : e ∈ restoreMarker fr) :
    pyStartsWith e "@" = true ∧ pyStrip e ≠ "" := by
  cases fr with
  | nil => cases he
  | cons e0 rest =>
    rcases List.mem_append.1 he with h1 | h2
    · exact firstEntryList_mem h1
    · obtain ⟨p, _, hp⟩ := List.mem_filterMap.1 h2
      by_cases hne : pyStrip (String.mk p) ≠ ""
      · rw [if_pos hne] at hp
        injection hp with hp
        subst hp
        exact ⟨pyStartsWith_at _, pyStrip_at_ne _⟩
      · rw [if_neg hne] at hp
        cases hp

/-- Counterexample to C3 as stated: the input whose split produces an
empty trailing fragment.  The claim asserts empty trailing fragments are
not dropped, which would make the splitter keep a second (marker-only)
entry; the code drops it and returns a one-element listing. -/
theorem c3_counterexample :
    splitBibEntries "@a\n@" = ["@a"] ∧
    (splitBibEntries "@a\n@").length = 1 ∧
    "@" ∉ splitBibEntries "@a\n@" := by
  refine ⟨by decide, by decide, by decide⟩

/-- C3 (amended): the splitter splits on the entry marker and restores it
to every kept fragment (never doubling it on a first fragment that
already carries it), DROPS every fragment that is blank after whitespace
stripping, including empty trailing fragments, tolerates leading and
trailing whitespace around the whole input, and returns an empty listing
(not a fault) for an input with zero entries. -/
theorem c3_entry_splitter (s pad1 pad2 : String)
    (hp1 : ∀ c ∈ pad1.data, isWS c = true)
    (hp2 : ∀ c ∈ pad2.data, isWS c = true) :
    (∀ e ∈ splitBibEntries s, pyStartsWith e "@" = true ∧ pyStrip e ≠ "") ∧
    splitBibEntries (pad1 ++ s ++ pad2) = splitBibEntries s ∧
    splitBibEntries "" = [] ∧
    splitBibEntries "@a\n@b" = ["@a", "@b"] ∧
    splitBibEntries "@a\n@" = ["@a"] := by
  refine ⟨?_, ?_, by decide, by decide, by decide⟩
  · intro e he
    exact restoreMarker_mem he
  · unfold splitBibEntries
    rw [pyStrip_pad s pad1 pad2 hp1 hp2]

/-- Witness for C3 (amended) at concrete padded input. -/
theorem c3_entry_splitter_witness :
    (pyStartsWith "@x" "@" = true ∧ pyStrip "@x" ≠ "") ∧
    splitBibEntries (" " ++ "x\n@y" ++ "\n ") = splitBibEntries "x\n@y" :=
  ⟨(c3_entry_splitter "x\n@y" " " "\n " (by decide) (by decide)).1 "@x" (by decide),
   (c3_entry_splitter "x\n@y" " " "\n " (by decide) (by decide)).2.1⟩

theorem runEntries_groups {author : String} {outs : List RenderOutcome}
    {rs res : RunState} (h : runEntries author rs outs = .ok res) :
    res.groups.length + countFails outs = rs.groups.length + outs.length := by
  induction outs generalizing rs with
  | nil =>
    cases h
    simp [countFails]
  | cons o os ih =>
    simp only [runEntries] at h
    cases o with
    | fail =>
      rw [show processEntry author rs.publisher RenderOutcome.fail =
        Except.ok ⟨none, rs.publisher, false⟩ from rfl] at h
      have h2 := ih h
      simp only [stepGroups] at h2
      simp [countFails, List.countP_cons, isFail] at h2 ⊢
      omega
    | ok out =>
      cases hp : parseLines (initState rs.publisher) (articleLines out) with
      | error e =>
        rw [show processEntry author rs.publisher (RenderOutcome.ok out) =
          Except.error e from by simp [processEntry, hp]] at h
        cases h
      | ok st =>
        rw [show processEntry author rs.publisher (RenderOutcome.ok out) =
          Except.ok ⟨some (entryGroup st author), st.publisher,
            isFirstAuthorB st.authors author⟩ from by simp [processEntry, hp]] at h
        have h2 := ih h
        simp only [stepGroups] at h2
        simp [countFails, List.countP_cons, isFail] at h2 ⊢
        omega

/-- C4: whenever the run completes (no uncaught error), each failed
render is skipped and the rest are processed, so the number of produced
entry groups equals the number of entries minus the number of failed
renders; moreover a render failure by itself never aborts the iteration
(it yields a skip result with unchanged carried state) and is logged. -/
theorem c4_skip_and_continue (author : String) (outs : List RenderOutcome)
    (rs : RunState) (h : runPipeline author outs = .ok rs) :
    rs.groups.length = outs.length - countFails outs ∧
    rs.groups.length + countFails outs = outs.length ∧
    (∀ pub, processEntry author pub .fail = .ok ⟨none, pub, false⟩) ∧
    (∀ pub, FileEvent.logWarning ∈ entryTrace author pub .fail) := by
  have h2 := runEntries_groups h
  simp only [List.length_nil] at h2
  exact ⟨by omega, by omega, fun pub => rfl, fun pub => by simp [entryTrace]⟩

/-- Witness for C4: a two-entry run with one failed render produces one
group. -/
theorem c4_skip_and_continue_witness :
    (⟨[sampleGroup], none, 1⟩ : RunState).groups.length =
      ([RenderOutcome.ok sampleOkLines, RenderOutcome.fail]).length -
        countFails [RenderOutcome.ok sampleOkLines, RenderOutcome.fail] :=
  (c4_skip_and_continue "Stephens" [RenderOutcome.ok sampleOkLines, RenderOutcome.fail]
    ⟨[sampleGroup], none, 1⟩ (by decide)).1

theorem runEntries_first_count {author : String} {outs : List RenderOutcome}
    {rs res : RunState} (h : runEntries author rs outs = .ok res)
    (hnf : ∀ o ∈ outs, o ≠ RenderOutcome.fail) :
    res.first_author_count =
      rs.first_author_count + outs.countP (entryFirstB author) := by
  induction outs generalizing rs with
  | nil =>
    cases h
    simp
  | cons o os ih =>
    simp only [runEntries] at h
    cases o with
    | fail => exact absurd rfl (hnf .fail (List.mem_cons_self _ _))
    | ok out =>
      cases hp : parseLines (initState rs.publisher) (articleLines out) with
      | error e =>
        rw [show processEntry author rs.publisher (RenderOutcome.ok out) =
          Except.error e from by simp [processEntry, hp]] at h
        cases h
      | ok st =>
        rw [show processEntry author rs.publisher (RenderOutcome.ok out) =
          Except.ok ⟨some (entryGroup st author), st.publisher,
            isFirstAuthorB st.authors author⟩ from by simp [processEntry, hp]] at h
        have h2 := ih h (fun o ho => hnf o (List.mem_cons_of_mem _ ho))
        have ha : st.authors = authorsOf (articleLines out) := by
          have := parseLines_authors hp
          simpa [initState] using this
        rw [h2]
        simp [List.countP_cons, entryFirstB, ha]
        omega

/-- C6: on a run with no render failures over N entries, the
first-author counter equals the number of entries in which the target
author is first-listed (k), the title statistic reads k and N-k, and the
emitted definition document's title contains that statistic. -/
theorem c6_title_statistic (author : String) (outs : List RenderOutcome)
    (rs : RunState) (yml_name : String)
    (h : runPipeline author outs = .ok rs)
    (hnf : ∀ o ∈ outs, o ≠ RenderOutcome.fail) :
    rs.first_author_count = firstListedCount author outs ∧
    titleCounts rs.first_author_count outs.length =
      toString (firstListedCount author outs) ++ " + " ++
        toString (outs.length - firstListedCount author outs) ∧
    ∃ pre suf, qmdTemplate yml_name (titleCounts rs.first_author_count outs.length) =
      pre ++ (toString (firstListedCount author outs) ++ " + " ++
        toString (outs.length - firstListedCount author outs)) ++ suf := by
  have hk : rs.first_author_count = firstListedCount author outs := by
    have h2 := runEntries_first_count h hnf
    simpa [firstListedCount] using h2
  refine ⟨hk, ?_, ?_⟩
  · rw [hk]
    rfl
  · refine ⟨qmdHead, qmdMid ++ yml_name ++ qmdTail, ?_⟩
    rw [hk]
    apply String.ext
    simp [qmdTemplate, titleCounts, data_append, List.append_assoc]

/-- Witness for C6: a clean single-entry run with the target author
first-listed. -/
theorem c6_title_statistic_witness :
    titleCounts (⟨[sampleGroup], none, 1⟩ : RunState).first_author_count
        ([RenderOutcome.ok sampleOkLines]).length =
      toString (firstListedCount "Stephens" [RenderOutcome.ok sampleOkLines]) ++ " + " ++
        toString (([RenderOutcome.ok sampleOkLines]).length -
          firstListedCount "Stephens" [RenderOutcome.ok sampleOkLines]) :=
  (c6_title_statistic "Stephens" [RenderOutcome.ok sampleOkLines]
    ⟨[sampleGroup], none, 1⟩ "publications.yml" (by decide) (by decide)).2.1

/-- C9: the publisher variable is only assigned when a publisher line is
seen and is never reset between entries.  A book entry whose lines carry
no publisher line makes the remap read the unassigned variable: with no
earlier entry having set it, the run aborts with the uncaught name
error; with an earlier entry having set it, the previous entry's
publisher is silently substituted as this entry's venue title. -/
theorem c9_publisher_leak :
    runPipeline "Stephens" [RenderOutcome.ok ["a", "b", "c", "  type: book", "y", "z"]] =
      .error PyErr.nameError ∧
    runPipeline "Stephens"
      [RenderOutcome.ok ["a", "b", "c", "  publisher: PrevPub", "y", "z"],
       RenderOutcome.ok ["a", "b", "c", "  type: book", "y", "z"]] =
      .ok ⟨[["  publisher: PrevPub", "  position: \x27N/A/0\x27"],
            ["  type: conference", "  type-title: \x27*PrevPub*\x27",
             "  position: \x27N/A/0\x27"]],
           some "PrevPub", 0⟩ := by
  refine ⟨by decide, by decide⟩

/-- C10: the total in the title statistic counts all split entries,
failed renders included, while the first-author count increments only for
successfully rendered entries: a run over two first-authored entries with
one render failure titles "1 + 1" (count excludes the failed entry, total
includes it), whereas the same run without the failure titles "2 + 0". -/
theorem c10_total_vs_first_count :
    runPipeline "Stephens" [RenderOutcome.ok sampleOkLines, RenderOutcome.fail] =
      .ok ⟨[sampleGroup], none, 1⟩ ∧
    ([RenderOutcome.ok sampleOkLines, RenderOutcome.fail]).length = 2 ∧
    titleCounts 1 2 = "1 + 1" ∧
    runPipeline "Stephens" [RenderOutcome.ok sampleOkLines, RenderOutcome.ok sampleOkLines] =
      .ok ⟨[sampleGroup, sampleGroup], none, 2⟩ ∧
    titleCounts 2 2 = "2 + 0" := by
  refine ⟨by decide, rfl, by decide, by decide, by decide⟩

end Publications
